import Mathlib

/-!
# Verification of the QLib lattice option pricers

Shallow embedding of the QLib notebooks' pricing functions:

* `BM_Euro`, `BM_Amer` — the multiplicative-binomial European/American
  pricers (notebook `src/unnamed/part_002`);
* `aTM_Euro`, `aTM_Amer` — the trinomial European/American pricers
  (notebook `src/unnamed/part_001`);
* the control-flow skeletons `BM_Euro_events` / `MC_Euro_events` used to
  reason about *when* errors are raised relative to lattice/path work
  (notebooks `part_002` and `part_000`).

NumPy floats are modelled as real numbers.  Python exceptions are modelled by
`Except PyError`: `dt = T/Ntree` raises `ZeroDivisionError` when `Ntree = 0`,
`raise Exception('parameter values not allowed')` is `invalidParameter`, and
`raise Exception('optype must be call or put')` is `invalidOptionType`.

The dense `(N+1)×(N+1)` (binomial) and `(2N+1)×(N+1)` (trinomial) NumPy
arrays are modelled as functions `ℕ → ℕ → ℝ` (row index, column index); cells
outside the array or never written by the source keep the value `0` given to
them by `np.zeros`.  Each slice assignment of the source writes each cell at
most once, so the loops are translated into closed-form `if`-guarded
definitions (for the payoff matrices) and a structural recursion on the
number of already-computed columns counted from the right (for the
backward-induction value matrices).
-/

namespace QLib

/-- Python exceptions raised by the pricers. -/
inductive PyError where
  | zeroDivision
  | invalidParameter
  | invalidOptionType
deriving DecidableEq

/-- Intrinsic payoff of a vanilla option, as the spec words it:
`call → max(S−K, 0)`, `put → max(K−S, 0)`. -/
noncomputable def intrinsic (K : ℝ) (optype : String) (S : ℝ) : ℝ :=
  if optype = "call" then max (S - K) 0 else max (K - S) 0

/-! ## Multiplicative binomial model (`part_002`) -/

/-- Source line `dt = T/Ntree`. -/
noncomputable def BM_dt (T : ℝ) (N : ℕ) : ℝ := T / N

/-- Source line `dfact = np.exp(-r*dt)`. -/
noncomputable def BM_dfact (r T : ℝ) (N : ℕ) : ℝ := Real.exp (-(r * BM_dt T N))

/-- Source line `p = (np.exp(r*dt)-d)/(u-d)`. -/
noncomputable def BM_p (r u d T : ℝ) (N : ℕ) : ℝ :=
  (Real.exp (r * BM_dt T N) - d) / (u - d)

/-- The source's parameter check `(0<d) and (d<1/dfact) and (1/dfact<u)`. -/
def BM_bracket (r u d T : ℝ) (N : ℕ) : Prop :=
  0 < d ∧ d < 1 / BM_dfact r T N ∧ 1 / BM_dfact r T N < u

/-- Asset-price matrix: the loop
`Pmat[Ntree-t:,t] = S0*(u**exponents[::-1])*(d**exponents)` writes, in column
`t`, the rows `Ntree-t … Ntree`, giving row `i` the price
`S0 * u^(N-i) * d^(i+t-N)`; all other cells keep the `np.zeros` value `0`
(the earlier `Pmat[Ntree, 0] = S0` is the `t = 0`, `i = N` case). -/
noncomputable def BM_Smat (S0 u d : ℝ) (N : ℕ) (i t : ℕ) : ℝ :=
  if N ≤ i + t ∧ i ≤ N ∧ t ≤ N then S0 * u ^ (N - i) * d ^ (i + t - N) else 0

/-- Strike matrix `Kmat = K*np.fliplr(np.tri(Ntree+1))`: `K` exactly on the
cells `N-t ≤ i ≤ N` written by the asset-price loop, `0` elsewhere. -/
def BM_Kmat (K : ℝ) (N : ℕ) (i t : ℕ) : ℝ :=
  if N ≤ i + t ∧ i ≤ N ∧ t ≤ N then K else 0

/-- Payoff matrix: `Pmat = Pmat - Kmat`, then clamped elementwise:
for `'call'`, `Pmat[Pmat<0] = 0` is `max · 0`; for `'put'`,
`Pmat[Pmat>0] = 0; Pmat = -Pmat` is `-(min · 0)`.  Any other `optype` raises
before the clamped matrix is used, so that branch is given the value `0`. -/
noncomputable def BM_Pmat (S0 K u d : ℝ) (N : ℕ) (optype : String) (i t : ℕ) : ℝ :=
  if optype = "call" then max (BM_Smat S0 u d N i t - BM_Kmat K N i t) 0
  else if optype = "put" then -(min (BM_Smat S0 u d N i t - BM_Kmat K N i t) 0)
  else 0

/-- European backward induction, by recursion on the number `k` of columns
already computed to the right: `k = 0` is `Vmat[:,-1] = Pmat[:,-1]`; the
iteration `m = k` of
`Vmat[m+1:, t] = dfact*(p*Vmat[m:Ntree, t+1] + (1-p)*Vmat[m+1:, t+1])`
(column `t = N-1-m`) writes rows `m+1 … N`, giving row `i` the value
`dfact*(p*V[i-1, t+1] + (1-p)*V[i, t+1])`; unwritten rows stay `0`. -/
noncomputable def BM_Vcol (dfact p : ℝ) (P : ℕ → ℕ → ℝ) (N : ℕ) : ℕ → ℕ → ℝ
  | 0, i => P i N
  | k + 1, i =>
    if k + 1 ≤ i ∧ i ≤ N then
      dfact * (p * BM_Vcol dfact p P N k (i - 1) + (1 - p) * BM_Vcol dfact p P N k i)
    else 0

/-- The European value matrix in (row, column) coordinates: column `t` is
computed at recursion depth `N - t`. -/
noncomputable def BM_Vmat (dfact p : ℝ) (P : ℕ → ℕ → ℝ) (N : ℕ) (i t : ℕ) : ℝ :=
  if t ≤ N then BM_Vcol dfact p P N (N - t) i else 0

/-- American backward induction (`exmat == False` branch): as `BM_Vcol` but
`Vmat[m+1:, t] = np.maximum(dfact*(p*Vmat[m:Ntree, t+1] + (1-p)*Vmat[m+1:, t+1]), Pmat[m+1:, t])`. -/
noncomputable def BM_VcolA (dfact p : ℝ) (P : ℕ → ℕ → ℝ) (N : ℕ) : ℕ → ℕ → ℝ
  | 0, i => P i N
  | k + 1, i =>
    if k + 1 ≤ i ∧ i ≤ N then
      max (dfact * (p * BM_VcolA dfact p P N k (i - 1) +
            (1 - p) * BM_VcolA dfact p P N k i))
        (P i (N - (k + 1)))
    else 0

/-- American value matrix (`exmat == False` branch), (row, column) view. -/
noncomputable def BM_VmatA (dfact p : ℝ) (P : ℕ → ℕ → ℝ) (N : ℕ) (i t : ℕ) : ℝ :=
  if t ≤ N then BM_VcolA dfact p P N (N - t) i else 0

/-- American backward induction with exercise tracking (`exmat == True`
branch): the value component is updated exactly as in `BM_VcolA`, and
`Exmat[m+1:, t] = (dfact*(p*Vmat[m:Ntree, t+1] + (1-p)*Vmat[m+1:, t+1]) - Pmat[m+1:, t]) < 0`
records the flag from the (final) successor column `t+1`; cells never written
keep `(0, False)` (`Exmat = np.zeros(...)`). -/
noncomputable def BM_trackCol (dfact p : ℝ) (P : ℕ → ℕ → ℝ) (N : ℕ) : ℕ → ℕ → ℝ × Prop
  | 0, i => (P i N, False)
  | k + 1, i =>
    if k + 1 ≤ i ∧ i ≤ N then
      (max (dfact * (p * (BM_trackCol dfact p P N k (i - 1)).1 +
            (1 - p) * (BM_trackCol dfact p P N k i).1))
        (P i (N - (k + 1))),
       dfact * (p * (BM_trackCol dfact p P N k (i - 1)).1 +
            (1 - p) * (BM_trackCol dfact p P N k i).1) - P i (N - (k + 1)) < 0)
    else (0, False)

/-- Tracked American value/flag matrix, (row, column) view. -/
noncomputable def BM_trackMat (dfact p : ℝ) (P : ℕ → ℕ → ℝ) (N : ℕ) (i t : ℕ) : ℝ × Prop :=
  if t ≤ N then BM_trackCol dfact p P N (N - t) i else (0, False)

/-- The recorded early-exercise flag matrix (`Exmat`, displayed via
`plt.matshow` by the source, not returned). -/
noncomputable def BM_Exmat (dfact p : ℝ) (P : ℕ → ℕ → ℝ) (N : ℕ) (i t : ℕ) : Prop :=
  (BM_trackMat dfact p P N i t).2

open Classical in
/-- Wrapper for `BM_Euro(S0, K, r, u, d, T, Ntree, optype)`, `part_002` lines 60–96:
`dt = T/Ntree` (ZeroDivisionError when `Ntree = 0`), then the parameter
check, then the payoff matrix is built, then the `optype` dispatch (raising
for an unknown `optype`), then the backward induction; the full value matrix
is returned. -/
noncomputable def BM_Euro (S0 K r u d T : ℝ) (N : ℕ) (optype : String) :
    Except PyError (ℕ → ℕ → ℝ) :=
  if N = 0 then .error .zeroDivision
  else if BM_bracket r u d T N then
    if optype = "call" ∨ optype = "put" then
      .ok (BM_Vmat (BM_dfact r T N) (BM_p r u d T N) (BM_Pmat S0 K u d N optype) N)
    else .error .invalidOptionType
  else .error .invalidParameter

open Classical in
/-- Wrapper for `BM_Amer(S0, K, r, u, d, T, Ntree, optype, exmat)`, `part_002` lines
138–183: identical validation and payoff construction; the backward
induction takes the max with the intrinsic payoff, with the `exmat == True`
branch additionally recording `Exmat`; the value matrix is returned. -/
noncomputable def BM_Amer (S0 K r u d T : ℝ) (N : ℕ) (optype : String) (exmat : Bool) :
    Except PyError (ℕ → ℕ → ℝ) :=
  if N = 0 then .error .zeroDivision
  else if BM_bracket r u d T N then
    if optype = "call" ∨ optype = "put" then
      .ok (if exmat then
            fun i t => (BM_trackMat (BM_dfact r T N) (BM_p r u d T N)
              (BM_Pmat S0 K u d N optype) N i t).1
          else BM_VmatA (BM_dfact r T N) (BM_p r u d T N) (BM_Pmat S0 K u d N optype) N)
    else .error .invalidOptionType
  else .error .invalidParameter

/-! ## Trinomial model (`part_001`) -/

/-- Source line `dt = T/Ntree`. -/
noncomputable def aTM_dt (T : ℝ) (N : ℕ) : ℝ := T / N

/-- Source line `dx = np.sqrt(3)*sigma*sdt` with `sdt = np.sqrt(dt)`. -/
noncomputable def aTM_dx (sigma T : ℝ) (N : ℕ) : ℝ :=
  Real.sqrt 3 * sigma * Real.sqrt (aTM_dt T N)

/-- Source line `dfact = np.exp(-r*dt)`. -/
noncomputable def aTM_dfact (r T : ℝ) (N : ℕ) : ℝ := Real.exp (-(r * aTM_dt T N))

/-- Source line `nu = (r-div)-0.5*sigma**2`. -/
noncomputable def aTM_nu (r div sigma : ℝ) : ℝ := (r - div) - 0.5 * sigma ^ 2

/-- Source line `sf = (sigma**2*dt + (nu*dt)**2)/dx**2`. -/
noncomputable def aTM_sf (r div sigma T : ℝ) (N : ℕ) : ℝ :=
  (sigma ^ 2 * aTM_dt T N + (aTM_nu r div sigma * aTM_dt T N) ^ 2) / aTM_dx sigma T N ^ 2

/-- Source line `af = nu*dt/dx`. -/
noncomputable def aTM_af (r div sigma T : ℝ) (N : ℕ) : ℝ :=
  aTM_nu r div sigma * aTM_dt T N / aTM_dx sigma T N

/-- Source line `pu = 0.5*(sf + af)`. -/
noncomputable def aTM_pu (r div sigma T : ℝ) (N : ℕ) : ℝ :=
  0.5 * (aTM_sf r div sigma T N + aTM_af r div sigma T N)

/-- Source line `pm = 1 - sf`. -/
noncomputable def aTM_pm (r div sigma T : ℝ) (N : ℕ) : ℝ := 1 - aTM_sf r div sigma T N

/-- Source line `pd = 0.5*(sf - af)`. -/
noncomputable def aTM_pd (r div sigma T : ℝ) (N : ℕ) : ℝ :=
  0.5 * (aTM_sf r div sigma T N - aTM_af r div sigma T N)

/-- Trinomial asset-price matrix (shape `(2N+1, N+1)`, centre index
`j0 = Ntree`): the loop `Pmat[j0-t:j0+(t+1), t] = S0*np.exp(dx*exponents[::-1])`
with `exponents = np.arange(-t, t+1)` gives row `i` of column `t`, for
`N-t ≤ i ≤ N+t`, the price `S0*exp(dx*(N-i))` (exponent taken in `ℤ`);
unwritten cells stay `0`. -/
noncomputable def aTM_Smat (S0 sigma T : ℝ) (N : ℕ) (i t : ℕ) : ℝ :=
  if N ≤ i + t ∧ i ≤ N + t ∧ t ≤ N then
    S0 * Real.exp (aTM_dx sigma T N * ((N : ℝ) - (i : ℝ)))
  else 0

/-- Trinomial strike matrix: `Kmat[j0-t:j0+(t+1), t] = K`, `0` elsewhere. -/
def aTM_Kmat (K : ℝ) (N : ℕ) (i t : ℕ) : ℝ :=
  if N ≤ i + t ∧ i ≤ N + t ∧ t ≤ N then K else 0

/-- Trinomial payoff matrix: `Pmat = Pmat - Kmat`, clamped per `optype`
exactly as in the binomial notebooks. -/
noncomputable def aTM_Pmat (S0 K sigma T : ℝ) (N : ℕ) (optype : String) (i t : ℕ) : ℝ :=
  if optype = "call" then max (aTM_Smat S0 sigma T N i t - aTM_Kmat K N i t) 0
  else if optype = "put" then -(min (aTM_Smat S0 sigma T N i t - aTM_Kmat K N i t) 0)
  else 0

/-- Trinomial European backward induction: iteration `m = k` of
`Vmat[j0-t:j0+(t+1), t] = dfact*(pu*Vmat[m:2*Ntree-(m+1), t+1] + pm*Vmat[m+1:2*Ntree-m, t+1] + pd*Vmat[m+2:2*Ntree-(m-1), t+1])`
(column `t = N-1-m`) writes rows `m+1 … 2N-(m+1)`, giving row `i` the value
`dfact*(pu*V[i-1, t+1] + pm*V[i, t+1] + pd*V[i+1, t+1])`. -/
noncomputable def aTM_Vcol (dfact pu pm pd : ℝ) (P : ℕ → ℕ → ℝ) (N : ℕ) : ℕ → ℕ → ℝ
  | 0, i => P i N
  | k + 1, i =>
    if k + 1 ≤ i ∧ i ≤ 2 * N - (k + 1) then
      dfact * (pu * aTM_Vcol dfact pu pm pd P N k (i - 1) +
        pm * aTM_Vcol dfact pu pm pd P N k i +
        pd * aTM_Vcol dfact pu pm pd P N k (i + 1))
    else 0

/-- Trinomial European value matrix, (row, column) view. -/
noncomputable def aTM_Vmat (dfact pu pm pd : ℝ) (P : ℕ → ℕ → ℝ) (N : ℕ) (i t : ℕ) : ℝ :=
  if t ≤ N then aTM_Vcol dfact pu pm pd P N (N - t) i else 0

/-- Trinomial American backward induction (`exmat == False` branch): the
update of `aTM_Vcol` composed with `np.maximum(·, Pmat[j0-t:j0+(t+1), t])`. -/
noncomputable def aTM_VcolA (dfact pu pm pd : ℝ) (P : ℕ → ℕ → ℝ) (N : ℕ) : ℕ → ℕ → ℝ
  | 0, i => P i N
  | k + 1, i =>
    if k + 1 ≤ i ∧ i ≤ 2 * N - (k + 1) then
      max (dfact * (pu * aTM_VcolA dfact pu pm pd P N k (i - 1) +
          pm * aTM_VcolA dfact pu pm pd P N k i +
          pd * aTM_VcolA dfact pu pm pd P N k (i + 1)))
        (P i (N - (k + 1)))
    else 0

/-- Trinomial American value matrix (`exmat == False` branch). -/
noncomputable def aTM_VmatA (dfact pu pm pd : ℝ) (P : ℕ → ℕ → ℝ) (N : ℕ) (i t : ℕ) : ℝ :=
  if t ≤ N then aTM_VcolA dfact pu pm pd P N (N - t) i else 0

/-- Trinomial American backward induction with exercise tracking
(`exmat == True` branch): same value update, plus
`Exmat[j0-t:j0+(t+1), t] = (dfact*(pu*… + pm*… + pd*…) - Pmat[j0-t:j0+(t+1), t]) < 0`
computed from the (final) successor column `t+1`. -/
noncomputable def aTM_trackCol (dfact pu pm pd : ℝ) (P : ℕ → ℕ → ℝ) (N : ℕ) :
    ℕ → ℕ → ℝ × Prop
  | 0, i => (P i N, False)
  | k + 1, i =>
    if k + 1 ≤ i ∧ i ≤ 2 * N - (k + 1) then
      (max (dfact * (pu * (aTM_trackCol dfact pu pm pd P N k (i - 1)).1 +
          pm * (aTM_trackCol dfact pu pm pd P N k i).1 +
          pd * (aTM_trackCol dfact pu pm pd P N k (i + 1)).1))
        (P i (N - (k + 1))),
       dfact * (pu * (aTM_trackCol dfact pu pm pd P N k (i - 1)).1 +
          pm * (aTM_trackCol dfact pu pm pd P N k i).1 +
          pd * (aTM_trackCol dfact pu pm pd P N k (i + 1)).1) - P i (N - (k + 1)) < 0)
    else (0, False)

/-- Tracked trinomial American value/flag matrix, (row, column) view. -/
noncomputable def aTM_trackMat (dfact pu pm pd : ℝ) (P : ℕ → ℕ → ℝ) (N : ℕ) (i t : ℕ) :
    ℝ × Prop :=
  if t ≤ N then aTM_trackCol dfact pu pm pd P N (N - t) i else (0, False)

/-- The recorded trinomial early-exercise flag matrix (`Exmat`). -/
noncomputable def aTM_Exmat (dfact pu pm pd : ℝ) (P : ℕ → ℕ → ℝ) (N : ℕ) (i t : ℕ) : Prop :=
  (aTM_trackMat dfact pu pm pd P N i t).2

open Classical in
/-- Wrapper for `aTM_Euro(S0, K, r, sigma, div, T, Ntree, optype)`, `part_001` lines
65–113: `dt = T/Ntree` (ZeroDivisionError when `Ntree = 0`), the parameter
check `(0<r) and (0<sigma)` (the dividend yield `div` is *not* validated),
payoff construction, `optype` dispatch, backward induction. -/
noncomputable def aTM_Euro (S0 K r sigma div T : ℝ) (N : ℕ) (optype : String) :
    Except PyError (ℕ → ℕ → ℝ) :=
  if N = 0 then .error .zeroDivision
  else if 0 < r ∧ 0 < sigma then
    if optype = "call" ∨ optype = "put" then
      .ok (aTM_Vmat (aTM_dfact r T N) (aTM_pu r div sigma T N) (aTM_pm r div sigma T N)
        (aTM_pd r div sigma T N) (aTM_Pmat S0 K sigma T N optype) N)
    else .error .invalidOptionType
  else .error .invalidParameter

open Classical in
/-- Wrapper for `aTM_Amer(S0, K, r, sigma, div, T, Ntree, optype, exmat)`, `part_001`
lines 160–217: identical validation and payoff construction; American
backward induction, with `Exmat` recorded in the `exmat == True` branch. -/
noncomputable def aTM_Amer (S0 K r sigma div T : ℝ) (N : ℕ) (optype : String) (exmat : Bool) :
    Except PyError (ℕ → ℕ → ℝ) :=
  if N = 0 then .error .zeroDivision
  else if 0 < r ∧ 0 < sigma then
    if optype = "call" ∨ optype = "put" then
      .ok (if exmat then
            fun i t => (aTM_trackMat (aTM_dfact r T N) (aTM_pu r div sigma T N)
              (aTM_pm r div sigma T N) (aTM_pd r div sigma T N)
              (aTM_Pmat S0 K sigma T N optype) N i t).1
          else aTM_VmatA (aTM_dfact r T N) (aTM_pu r div sigma T N) (aTM_pm r div sigma T N)
            (aTM_pd r div sigma T N) (aTM_Pmat S0 K sigma T N optype) N)
    else .error .invalidOptionType
  else .error .invalidParameter

/-! ## Control-flow skeletons for error ordering (`part_002`, `part_000`)

These record the observable order of work and raises along each control path,
abstracting the numerical content of each step. -/

/-- Observable events of a pricing call. -/
inductive Ev where
  | raiseZeroDiv
  | raiseParam
  | raiseOptype
  | buildPayoffLattice
  | buildValueLattice
  | simulatePaths
  | averagePayoffs
deriving DecidableEq

open Classical in
/-- Control flow of `BM_Euro` (`part_002` lines 60–96): `dt = T/Ntree` raises
on `Ntree = 0`; then the parameter check; then the payoff-lattice loops run;
only then is `optype` examined (raising for an unknown kind); finally the
value-lattice backward induction runs. -/
noncomputable def BM_Euro_events (S0 K r u d T : ℝ) (N : ℕ) (optype : String) : List Ev :=
  if N = 0 then [.raiseZeroDiv]
  else if BM_bracket r u d T N then
    .buildPayoffLattice ::
      (if optype = "call" ∨ optype = "put" then [.buildValueLattice] else [.raiseOptype])
  else [.raiseParam]

open Classical in
/-- Control flow of `MC_Euro` (`part_000` lines 76–102): `dt = T/Nsteps`
raises on `Nsteps = 0`; then the parameter check
`(0<r) and (0<sigma) and (0<=div)`; then `S1_GBM` simulates the paths; only
then is `optype` examined (raising for an unknown kind); finally the
discounted payoffs are averaged. -/
noncomputable def MC_Euro_events (S0 K r sigma div T : ℝ) (Nsteps Nsim : ℕ)
    (optype : String) : List Ev :=
  if Nsteps = 0 then [.raiseZeroDiv]
  else if 0 < r ∧ 0 < sigma ∧ 0 ≤ div then
    .simulatePaths ::
      (if optype = "call" ∨ optype = "put" then [.averagePayoffs] else [.raiseOptype])
  else [.raiseParam]

/-! ## Basic lemmas -/

lemma neg_min_zero (x : ℝ) : -(min x 0) = max (-x) 0 := by
  rcases le_total x 0 with h | h
  · rw [min_eq_left h, max_eq_left (by linarith)]
  · rw [min_eq_right h, max_eq_right (by linarith), neg_zero]

lemma BM_dfact_pos (r T : ℝ) (N : ℕ) : 0 < BM_dfact r T N := Real.exp_pos _

lemma one_div_BM_dfact (r T : ℝ) (N : ℕ) :
    1 / BM_dfact r T N = Real.exp (r * (T / N)) := by
  rw [BM_dfact, BM_dt, Real.exp_neg, one_div, inv_inv]

/-- The source's check `0 < d < 1/dfact < u` is the no-arbitrage bracket
`0 < d < e^{rΔt} < u`. -/
lemma BM_bracket_iff (r u d T : ℝ) (N : ℕ) :
    BM_bracket r u d T N ↔
      0 < d ∧ d < Real.exp (r * (T / N)) ∧ Real.exp (r * (T / N)) < u := by
  rw [BM_bracket, one_div_BM_dfact]

lemma BM_p_mem (r u d T : ℝ) (N : ℕ) (h : BM_bracket r u d T N) :
    0 < BM_p r u d T N ∧ BM_p r u d T N < 1 := by
  rw [BM_bracket_iff] at h
  obtain ⟨-, h1, h2⟩ := h
  have hud : 0 < u - d := by linarith
  rw [BM_p, BM_dt]
  constructor
  · exact div_pos (by linarith) hud
  · rw [div_lt_one hud]
    linarith

/-! ## Structure of the binomial value matrices -/

section BMlattice

variable {dfact p : ℝ} {P : ℕ → ℕ → ℝ} {N : ℕ}

lemma BM_Vmat_last (i : ℕ) : BM_Vmat dfact p P N i N = P i N := by
  simp [BM_Vmat, BM_Vcol]

lemma BM_Vmat_step {t i : ℕ} (ht : t < N) (hi1 : N - t ≤ i) (hi2 : i ≤ N) :
    BM_Vmat dfact p P N i t =
      dfact * (p * BM_Vmat dfact p P N (i - 1) (t + 1) +
        (1 - p) * BM_Vmat dfact p P N i (t + 1)) := by
  have hk : N - t = (N - (t + 1)) + 1 := by omega
  rw [BM_Vmat, if_pos ht.le, hk, BM_Vcol, if_pos ⟨by omega, hi2⟩,
    BM_Vmat, if_pos (by omega : t + 1 ≤ N), BM_Vmat, if_pos (by omega : t + 1 ≤ N)]

lemma BM_trackCol_fst (k : ℕ) :
    ∀ i, (BM_trackCol dfact p P N k i).1 = BM_VcolA dfact p P N k i := by
  induction k with
  | zero => intro i; simp [BM_trackCol, BM_VcolA]
  | succ k ih =>
    intro i
    simp only [BM_trackCol, BM_VcolA]
    split_ifs with h
    · simp [ih]
    · rfl

lemma BM_trackMat_fst (i t : ℕ) :
    (BM_trackMat dfact p P N i t).1 = BM_VmatA dfact p P N i t := by
  rw [BM_trackMat, BM_VmatA]
  split_ifs with h
  · exact BM_trackCol_fst _ i
  · rfl

lemma BM_Pmat_nonneg (S0 K u d : ℝ) (optype : String) (i t : ℕ) :
    0 ≤ BM_Pmat S0 K u d N optype i t := by
  rw [BM_Pmat]
  split_ifs
  · exact le_max_right _ _
  · exact neg_nonneg.2 (min_le_right _ _)
  · exact le_rfl

lemma BM_Vcol_nonneg (hd : 0 ≤ dfact) (hp0 : 0 ≤ p) (hp1 : p ≤ 1)
    (hP : ∀ i t, 0 ≤ P i t) (k : ℕ) : ∀ i, 0 ≤ BM_Vcol dfact p P N k i := by
  induction k with
  | zero => intro i; simpa [BM_Vcol] using hP i N
  | succ k ih =>
    intro i
    simp only [BM_Vcol]
    split_ifs with h
    · have h1 := ih (i - 1)
      have h2 := ih i
      have h1p : 0 ≤ 1 - p := by linarith
      exact mul_nonneg hd (add_nonneg (mul_nonneg hp0 h1) (mul_nonneg h1p h2))
    · exact le_rfl

lemma BM_VcolA_nonneg (hd : 0 ≤ dfact) (hp0 : 0 ≤ p) (hp1 : p ≤ 1)
    (hP : ∀ i t, 0 ≤ P i t) (k : ℕ) : ∀ i, 0 ≤ BM_VcolA dfact p P N k i := by
  induction k with
  | zero => intro i; simpa [BM_VcolA] using hP i N
  | succ k ih =>
    intro i
    simp only [BM_VcolA]
    split_ifs with h
    · have h1 := ih (i - 1)
      have h2 := ih i
      have h1p : 0 ≤ 1 - p := by linarith
      exact le_trans
        (mul_nonneg hd (add_nonneg (mul_nonneg hp0 h1) (mul_nonneg h1p h2)))
        (le_max_left _ _)
    · exact le_rfl

lemma BM_Vcol_le_VcolA (hd : 0 ≤ dfact) (hp0 : 0 ≤ p) (hp1 : p ≤ 1) (k : ℕ) :
    ∀ i, BM_Vcol dfact p P N k i ≤ BM_VcolA dfact p P N k i := by
  induction k with
  | zero => intro i; simp [BM_Vcol, BM_VcolA]
  | succ k ih =>
    intro i
    simp only [BM_Vcol, BM_VcolA]
    split_ifs with h
    · have h1p : 0 ≤ 1 - p := by linarith
      refine le_trans ?_ (le_max_left _ _)
      have hsum := add_le_add (mul_le_mul_of_nonneg_left (ih (i - 1)) hp0)
        (mul_le_mul_of_nonneg_left (ih i) h1p)
      exact mul_le_mul_of_nonneg_left hsum hd
    · exact le_rfl

end BMlattice

/-! ## Success and failure shapes of the wrappers -/

lemma BM_Euro_ok_elim {S0 K r u d T : ℝ} {N : ℕ} {optype : String} {V : ℕ → ℕ → ℝ}
    (h : BM_Euro S0 K r u d T N optype = .ok V) :
    N ≠ 0 ∧ BM_bracket r u d T N ∧ (optype = "call" ∨ optype = "put") ∧
      V = BM_Vmat (BM_dfact r T N) (BM_p r u d T N) (BM_Pmat S0 K u d N optype) N := by
  rw [BM_Euro] at h
  split_ifs at h with h1 h2 h3 <;>
    first
      | (cases h; exact ⟨h1, h2, h3, rfl⟩)
      | cases h

lemma BM_Amer_ok_elim {S0 K r u d T : ℝ} {N : ℕ} {optype : String} {exmat : Bool}
    {V : ℕ → ℕ → ℝ} (h : BM_Amer S0 K r u d T N optype exmat = .ok V) :
    N ≠ 0 ∧ BM_bracket r u d T N ∧ (optype = "call" ∨ optype = "put") ∧
      V = BM_VmatA (BM_dfact r T N) (BM_p r u d T N) (BM_Pmat S0 K u d N optype) N := by
  rw [BM_Amer] at h
  split_ifs at h with h1 h2 h3 h4 <;>
    first
      | (cases h; exact ⟨h1, h2, h3, rfl⟩)
      | (cases h;
         exact ⟨h1, h2, h3, funext fun i => funext fun t => BM_trackMat_fst i t⟩)
      | cases h

lemma aTM_trackCol_fst {dfact pu pm pd : ℝ} {P : ℕ → ℕ → ℝ} {N : ℕ} (k : ℕ) :
    ∀ i, (aTM_trackCol dfact pu pm pd P N k i).1 = aTM_VcolA dfact pu pm pd P N k i := by
  induction k with
  | zero => intro i; simp [aTM_trackCol, aTM_VcolA]
  | succ k ih =>
    intro i
    simp only [aTM_trackCol, aTM_VcolA]
    split_ifs with h
    · simp [ih]
    · rfl

lemma aTM_trackMat_fst {dfact pu pm pd : ℝ} {P : ℕ → ℕ → ℝ} {N : ℕ} (i t : ℕ) :
    (aTM_trackMat dfact pu pm pd P N i t).1 = aTM_VmatA dfact pu pm pd P N i t := by
  rw [aTM_trackMat, aTM_VmatA]
  split_ifs with h
  · exact aTM_trackCol_fst _ i
  · rfl

lemma aTM_Euro_ok_elim {S0 K r sigma div T : ℝ} {N : ℕ} {optype : String} {V : ℕ → ℕ → ℝ}
    (h : aTM_Euro S0 K r sigma div T N optype = .ok V) :
    N ≠ 0 ∧ (0 < r ∧ 0 < sigma) ∧ (optype = "call" ∨ optype = "put") ∧
      V = aTM_Vmat (aTM_dfact r T N) (aTM_pu r div sigma T N) (aTM_pm r div sigma T N)
        (aTM_pd r div sigma T N) (aTM_Pmat S0 K sigma T N optype) N := by
  rw [aTM_Euro] at h
  split_ifs at h with h1 h2 h3 <;>
    first
      | (cases h; exact ⟨h1, h2, h3, rfl⟩)
      | cases h

lemma aTM_Amer_ok_elim {S0 K r sigma div T : ℝ} {N : ℕ} {optype : String} {exmat : Bool}
    {V : ℕ → ℕ → ℝ} (h : aTM_Amer S0 K r sigma div T N optype exmat = .ok V) :
    N ≠ 0 ∧ (0 < r ∧ 0 < sigma) ∧ (optype = "call" ∨ optype = "put") ∧
      V = aTM_VmatA (aTM_dfact r T N) (aTM_pu r div sigma T N) (aTM_pm r div sigma T N)
        (aTM_pd r div sigma T N) (aTM_Pmat S0 K sigma T N optype) N := by
  rw [aTM_Amer] at h
  split_ifs at h with h1 h2 h3 h4 <;>
    first
      | (cases h; exact ⟨h1, h2, h3, rfl⟩)
      | (cases h;
         exact ⟨h1, h2, h3, funext fun i => funext fun t => aTM_trackMat_fst i t⟩)
      | cases h

/-- Concrete no-arbitrage bracket used by the witnesses: with `r = 0` the
gross return per step is `1`, and `1/2 < 1 < 2`. -/
lemma BM_bracket_r0 : BM_bracket 0 2 (1/2) 1 1 := by
  have h : BM_dfact 0 1 1 = 1 := by simp [BM_dfact, BM_dt]
  rw [BM_bracket, h]
  norm_num

/-! ## Claims -/

/-- Claim C8: For every `sigma > 0`, `T > 0`, `N ≥ 1` and arbitrary `r` and
dividend yield, the three trinomial transition probabilities
`pu = ½(s+a)`, `pm = 1−s`, `pd = ½(s−a)` computed by `aTM_Euro`/`aTM_Amer`
sum exactly to `1`. -/
theorem aTM_probs_sum_one (r div sigma T : ℝ) (N : ℕ)
    (hs : 0 < sigma) (hT : 0 < T) (hN : 1 ≤ N) :
    aTM_pu r div sigma T N + aTM_pm r div sigma T N + aTM_pd r div sigma T N = 1 := by
  rw [aTM_pu, aTM_pm, aTM_pd]
  ring

/-- Witness for C8 at `r = 0`, `div = 0`, `sigma = 1`, `T = 1`, `N = 1`. -/
theorem aTM_probs_sum_one_witness :
    aTM_pu 0 0 1 1 1 + aTM_pm 0 0 1 1 1 + aTM_pd 0 0 1 1 1 = 1 :=
  aTM_probs_sum_one 0 0 1 1 1 (by norm_num) (by norm_num) (by norm_num)

/-- Claim C6, counterexample: With `N = 0` the binomial European pricer does
not succeed: `dt = T/Ntree` is a division by zero, so no lattice is
returned. -/
theorem N_zero_call_not_ok :
    ¬ ∃ V : ℕ → ℕ → ℝ, BM_Euro 100 100 0 2 (1/2) 1 0 "call" = Except.ok V := by
  rintro ⟨V, hV⟩
  simp [BM_Euro] at hV

/-- Claim C6, amended: Every lattice pricer called with `N = 0` fails with the
division-by-zero error raised by `dt = T/Ntree`, before any lattice
construction; no degenerate single-node lattice is produced. -/
theorem lattice_N_zero_zeroDivision (S0 K r u d sigma div T : ℝ) (N : ℕ)
    (optype : String) (exmat : Bool) (hN : N = 0) :
    BM_Euro S0 K r u d T N optype = .error .zeroDivision ∧
    BM_Amer S0 K r u d T N optype exmat = .error .zeroDivision ∧
    aTM_Euro S0 K r sigma div T N optype = .error .zeroDivision ∧
    aTM_Amer S0 K r sigma div T N optype exmat = .error .zeroDivision := by
  subst hN
  exact ⟨by simp [BM_Euro], by simp [BM_Amer], by simp [aTM_Euro], by simp [aTM_Amer]⟩

/-- Witness for C6 at a concrete `N = 0` call. -/
theorem lattice_N_zero_zeroDivision_witness :
    BM_Euro 100 100 0 2 (1/2) 1 0 "call" = .error .zeroDivision ∧
    BM_Amer 100 100 0 2 (1/2) 1 0 "call" false = .error .zeroDivision ∧
    aTM_Euro 100 100 0 1 0 1 0 "call" = .error .zeroDivision ∧
    aTM_Amer 100 100 0 1 0 1 0 "call" false = .error .zeroDivision :=
  lattice_N_zero_zeroDivision 100 100 0 2 (1/2) 1 0 1 0 "call" false rfl

/-- Claim C5, counterexample: A trinomial call with `dividend_yield = -1 < 0`
(and `r = 1 > 0`, `sigma = 1 > 0`) is not rejected: the source checks only
`(0<r) and (0<sigma)`. -/
theorem aTM_negative_div_not_rejected :
    aTM_Euro 100 100 1 1 (-1) 1 1 "call" ≠ Except.error PyError.invalidParameter := by
  rw [aTM_Euro, if_neg (by norm_num), if_pos (by norm_num : (0:ℝ) < 1 ∧ (0:ℝ) < 1),
    if_pos (Or.inl rfl)]
  simp

/-- Claim C5, amended: The trinomial pricers do not validate the dividend
yield: a call with `dividend_yield < 0`, `r > 0`, `sigma > 0`, `N ≥ 1` and a
valid option kind succeeds and returns a value lattice (only `r ≤ 0` or
`sigma ≤ 0` raise the parameter error). -/
theorem aTM_negative_div_accepted (S0 K r sigma div T : ℝ) (N : ℕ) (optype : String)
    (exmat : Bool) (hN : 1 ≤ N) (hr : 0 < r) (hs : 0 < sigma) (hdiv : div < 0)
    (hop : optype = "call" ∨ optype = "put") :
    (∃ V, aTM_Euro S0 K r sigma div T N optype = Except.ok V) ∧
    (∃ V, aTM_Amer S0 K r sigma div T N optype exmat = Except.ok V) := by
  have hN0 : N ≠ 0 := by omega
  exact ⟨⟨_, by rw [aTM_Euro, if_neg hN0, if_pos ⟨hr, hs⟩, if_pos hop]⟩,
    ⟨_, by rw [aTM_Amer, if_neg hN0, if_pos ⟨hr, hs⟩, if_pos hop]⟩⟩

/-- Witness for C5 (amended) at `div = -1`, `r = sigma = 1`. -/
theorem aTM_negative_div_accepted_witness :
    (∃ V, aTM_Euro 100 100 1 1 (-1) 1 1 "call" = Except.ok V) ∧
    (∃ V, aTM_Amer 100 100 1 1 (-1) 1 1 "call" false = Except.ok V) :=
  aTM_negative_div_accepted 100 100 1 1 (-1) 1 1 "call" false (by norm_num)
    (by norm_num) (by norm_num) (by norm_num) (Or.inl rfl)

/-- Claim C9: the `exmat` argument does not affect the returned value lattice:
for all inputs, `BM_Amer`/`aTM_Amer` with `exmat = true` return exactly what
they return with `exmat = false` (the tracking branch performs the identical
backward-induction update and only additionally records the flag matrix). -/
theorem exmat_value_lattice_eq :
    (∀ (S0 K r u d T : ℝ) (N : ℕ) (optype : String),
      BM_Amer S0 K r u d T N optype true = BM_Amer S0 K r u d T N optype false) ∧
    (∀ (S0 K r sigma div T : ℝ) (N : ℕ) (optype : String),
      aTM_Amer S0 K r sigma div T N optype true = aTM_Amer S0 K r sigma div T N optype false) := by
  constructor
  · intro S0 K r u d T N optype
    rw [BM_Amer, BM_Amer]
    split_ifs with h1 h2 h3 <;>
      first
        | rfl
        | contradiction
        | (congr 1; funext i t; exact BM_trackMat_fst i t)
        | (congr 1; funext i t; exact (BM_trackMat_fst i t).symm)
  · intro S0 K r sigma div T N optype
    rw [aTM_Amer, aTM_Amer]
    split_ifs with h1 h2 h3 <;>
      first
        | rfl
        | contradiction
        | (congr 1; funext i t; exact aTM_trackMat_fst i t)
        | (congr 1; funext i t; exact (aTM_trackMat_fst i t).symm)

/-- Claim C4, counterexample: A call with an invalid option kind (valid
parameters otherwise) is *not* error-first: the binomial pricer has already
built the payoff lattice, and the Monte Carlo estimator has already
simulated the paths, when the option-type error is raised. -/
theorem optype_error_after_lattice_work :
    Ev.buildPayoffLattice ∈ BM_Euro_events 100 100 0 2 (1/2) 1 1 "straddle" ∧
    Ev.simulatePaths ∈ MC_Euro_events 100 100 1 1 0 1 1 1 "straddle" := by
  constructor
  · rw [BM_Euro_events, if_neg (by norm_num), if_pos BM_bracket_r0]
    exact List.mem_cons_self _ _
  · rw [MC_Euro_events, if_neg (by norm_num),
      if_pos (by norm_num : (0:ℝ) < 1 ∧ (0:ℝ) < 1 ∧ (0:ℝ) ≤ 0)]
    exact List.mem_cons_self _ _

/-- Claim C4, amended: A pricing call whose option kind is neither `call` nor
`put` (all other parameters valid) fails with the invalid-option-type error,
but only after the lattice/path work that precedes the `optype` dispatch in
the source: the tree pricer has built the payoff lattice (though not the
value lattice), and the Monte Carlo estimator has simulated the paths
(though not averaged the payoffs), before the error is raised. -/
theorem optype_error_order :
    (∀ (S0 K r u d T : ℝ) (N : ℕ) (optype : String), 1 ≤ N →
      BM_bracket r u d T N → ¬(optype = "call" ∨ optype = "put") →
      BM_Euro_events S0 K r u d T N optype = [Ev.buildPayoffLattice, Ev.raiseOptype] ∧
      BM_Euro S0 K r u d T N optype = .error .invalidOptionType) ∧
    (∀ (S0 K r sigma div T : ℝ) (Nsteps Nsim : ℕ) (optype : String), 1 ≤ Nsteps →
      0 < r → 0 < sigma → 0 ≤ div → ¬(optype = "call" ∨ optype = "put") →
      MC_Euro_events S0 K r sigma div T Nsteps Nsim optype =
        [Ev.simulatePaths, Ev.raiseOptype]) := by
  constructor
  · intro S0 K r u d T N optype hN hbr hop
    have hN0 : N ≠ 0 := by omega
    exact ⟨by rw [BM_Euro_events, if_neg hN0, if_pos hbr, if_neg hop],
      by rw [BM_Euro, if_neg hN0, if_pos hbr, if_neg hop]⟩
  · intro S0 K r sigma div T Nsteps Nsim optype hN hr hs hd hop
    have hN0 : Nsteps ≠ 0 := by omega
    rw [MC_Euro_events, if_neg hN0, if_pos ⟨hr, hs, hd⟩, if_neg hop]

/-- Witness for C4 (amended) at the option kind `"straddle"`. -/
theorem optype_error_order_witness :
    (BM_Euro_events 100 100 0 2 (1/2) 1 1 "straddle" =
        [Ev.buildPayoffLattice, Ev.raiseOptype] ∧
      BM_Euro 100 100 0 2 (1/2) 1 1 "straddle" = .error .invalidOptionType) ∧
    MC_Euro_events 100 100 1 1 0 1 1 1 "straddle" = [Ev.simulatePaths, Ev.raiseOptype] :=
  ⟨optype_error_order.1 100 100 0 2 (1/2) 1 1 "straddle" (by norm_num) BM_bracket_r0
      (by decide),
    optype_error_order.2 100 100 1 1 0 1 1 1 "straddle" (by norm_num) (by norm_num)
      (by norm_num) (by norm_num) (by decide)⟩

/-- Claim C7: For the multiplicative-binomial pricers with a valid option kind
(and `N ≥ 1` so that `Δt` is defined), the call fails with the parameter
error exactly when the no-arbitrage bracket `0 < d < e^{rΔt} < u` fails, and
when the bracket holds the call returns the lattice built from the
risk-neutral probability `p = (e^{rΔt} − d)/(u − d)`. -/
theorem BM_bracket_error_iff (S0 K r u d T : ℝ) (N : ℕ) (optype : String) (exmat : Bool)
    (hN : 1 ≤ N) (hop : optype = "call" ∨ optype = "put") :
    (BM_Euro S0 K r u d T N optype = .error .invalidParameter ↔
      ¬(0 < d ∧ d < Real.exp (r * (T / N)) ∧ Real.exp (r * (T / N)) < u)) ∧
    (BM_Amer S0 K r u d T N optype exmat = .error .invalidParameter ↔
      ¬(0 < d ∧ d < Real.exp (r * (T / N)) ∧ Real.exp (r * (T / N)) < u)) ∧
    ((0 < d ∧ d < Real.exp (r * (T / N)) ∧ Real.exp (r * (T / N)) < u) →
      BM_Euro S0 K r u d T N optype =
        .ok (BM_Vmat (BM_dfact r T N) (BM_p r u d T N) (BM_Pmat S0 K u d N optype) N)) := by
  have hN0 : N ≠ 0 := by omega
  have hbr := BM_bracket_iff r u d T N
  by_cases hb : BM_bracket r u d T N
  · have hb' := hbr.mp hb
    refine ⟨?_, ?_, fun _ => ?_⟩
    · rw [BM_Euro, if_neg hN0, if_pos hb, if_pos hop]
      exact iff_of_false (by simp) (not_not_intro hb')
    · rw [BM_Amer, if_neg hN0, if_pos hb, if_pos hop]
      exact iff_of_false (by simp) (not_not_intro hb')
    · rw [BM_Euro, if_neg hN0, if_pos hb, if_pos hop]
  · have hb' : ¬(0 < d ∧ d < Real.exp (r * (T / N)) ∧ Real.exp (r * (T / N)) < u) :=
      fun h => hb (hbr.mpr h)
    refine ⟨?_, ?_, fun h => absurd h hb'⟩
    · rw [BM_Euro, if_neg hN0, if_neg hb]
      exact iff_of_true rfl hb'
    · rw [BM_Amer, if_neg hN0, if_neg hb]
      exact iff_of_true rfl hb'

/-- Witness for C7 at `r = 0`, `d = 1/2`, `u = 2`, `N = 1`, kind `call`. -/
theorem BM_bracket_error_iff_witness :
    (BM_Euro 100 100 0 2 (1/2) 1 1 "call" = .error .invalidParameter ↔
      ¬((0:ℝ) < 1/2 ∧ 1/2 < Real.exp (0 * ((1:ℝ) / (1:ℕ))) ∧
        Real.exp (0 * ((1:ℝ) / (1:ℕ))) < 2)) ∧
    (BM_Amer 100 100 0 2 (1/2) 1 1 "call" false = .error .invalidParameter ↔
      ¬((0:ℝ) < 1/2 ∧ 1/2 < Real.exp (0 * ((1:ℝ) / (1:ℕ))) ∧
        Real.exp (0 * ((1:ℝ) / (1:ℕ))) < 2)) ∧
    (((0:ℝ) < 1/2 ∧ 1/2 < Real.exp (0 * ((1:ℝ) / (1:ℕ))) ∧
        Real.exp (0 * ((1:ℝ) / (1:ℕ))) < 2) →
      BM_Euro 100 100 0 2 (1/2) 1 1 "call" =
        .ok (BM_Vmat (BM_dfact 0 1 1) (BM_p 0 2 (1/2) 1 1)
          (BM_Pmat 100 100 2 (1/2) 1 "call") 1)) :=
  BM_bracket_error_iff 100 100 0 2 (1/2) 1 1 "call" false (by norm_num) (Or.inl rfl)

/-- Terminal column of the binomial payoff matrix: row `N − j` of column `N`
holds the intrinsic payoff at the node price `S0·u^j·d^(N−j)`. -/
lemma BM_Pmat_last {S0 K u d : ℝ} {N : ℕ} {optype : String}
    (hop : optype = "call" ∨ optype = "put") {j : ℕ} (hj : j ≤ N) :
    BM_Pmat S0 K u d N optype (N - j) N = intrinsic K optype (S0 * u ^ j * d ^ (N - j)) := by
  have hreg : N ≤ (N - j) + N ∧ (N - j) ≤ N ∧ N ≤ N := ⟨by omega, by omega, le_rfl⟩
  have h1 : N - (N - j) = j := by omega
  have h2 : (N - j) + N - N = N - j := by omega
  rw [BM_Pmat, BM_Smat, BM_Kmat, if_pos hreg, if_pos hreg, h1, h2, intrinsic]
  rcases hop with h | h
  · rw [if_pos h, if_pos h]
  · rw [h]
    rw [if_neg (by decide), if_pos rfl, if_neg (by decide), neg_min_zero, neg_sub]

/-- Claim C1: For the multiplicative-binomial European pricer with `S0 > 0`,
`N ≥ 1`, no-arbitrage bracket `0 < d < e^{rΔt} < u` and a valid option kind,
the returned value lattice — read at node `(time i, ups j)` as the matrix
cell `(N−j, i)` — has terminal column equal to the intrinsic payoff at the
node prices `S0·u^j·d^(N−j)`, and satisfies the backward recursion
`V_{i,j} = e^{-rΔt}·(p·V_{i+1,j+1} + (1−p)·V_{i+1,j})` with
`p = (e^{rΔt}−d)/(u−d)` at every `i < N` and reachable `j ≤ i`; the scalar
price `V_{0,0}` is the cell `(N, 0)` of this lattice. -/
theorem BM_Euro_lattice_spec (S0 K r u d T : ℝ) (N : ℕ) (optype : String)
    (hS0 : 0 < S0) (hN : 1 ≤ N)
    (hb : 0 < d ∧ d < Real.exp (r * (T / N)) ∧ Real.exp (r * (T / N)) < u)
    (hop : optype = "call" ∨ optype = "put") :
    ∃ V, BM_Euro S0 K r u d T N optype = Except.ok V ∧
      (∀ j, j ≤ N → V (N - j) N = intrinsic K optype (S0 * u ^ j * d ^ (N - j))) ∧
      (∀ i j, i < N → j ≤ i →
        V (N - j) i = Real.exp (-(r * (T / N))) *
          ((Real.exp (r * (T / N)) - d) / (u - d) * V (N - (j + 1)) (i + 1) +
           (1 - (Real.exp (r * (T / N)) - d) / (u - d)) * V (N - j) (i + 1))) := by
  have hN0 : N ≠ 0 := by omega
  have hbr : BM_bracket r u d T N := (BM_bracket_iff r u d T N).mpr hb
  refine ⟨_, by rw [BM_Euro, if_neg hN0, if_pos hbr, if_pos hop], fun j hj => ?_, ?_⟩
  · rw [BM_Vmat_last]
    exact BM_Pmat_last hop hj
  · intro i j hi hj
    have e1 : N - j - 1 = N - (j + 1) := by omega
    rw [BM_Vmat_step hi (by omega) (by omega), e1]
    simp only [BM_dfact, BM_p, BM_dt]

/-- Witness for C1 at `S0 = K = 100`, `r = 0`, `u = 2`, `d = 1/2`, `T = 1`,
`N = 1`, kind `call`. -/
theorem BM_Euro_lattice_spec_witness :
    ∃ V, BM_Euro 100 100 0 2 (1/2) 1 1 "call" = Except.ok V ∧
      (∀ j, j ≤ 1 → V (1 - j) 1 = intrinsic 100 "call" (100 * 2 ^ j * (1/2) ^ (1 - j))) ∧
      (∀ i j, i < 1 → j ≤ i →
        V (1 - j) i = Real.exp (-(0 * ((1:ℝ) / (1:ℕ)))) *
          ((Real.exp (0 * ((1:ℝ) / (1:ℕ))) - 1/2) / (2 - 1/2) * V (1 - (j + 1)) (i + 1) +
           (1 - (Real.exp (0 * ((1:ℝ) / (1:ℕ))) - 1/2) / (2 - 1/2)) * V (1 - j) (i + 1))) :=
  BM_Euro_lattice_spec 100 100 0 2 (1/2) 1 1 "call" (by norm_num) (by norm_num)
    (by norm_num [Real.exp_zero]) (Or.inl rfl)

/-- Claim C2: For identical parameters on which both multiplicative-binomial
pricers succeed, every node of the American value lattice dominates the
corresponding node of the European one; in particular at the root cell
`(N, 0)` (the node `(0,0)`, the scalar price). -/
theorem BM_Amer_ge_BM_Euro (S0 K r u d T : ℝ) (N : ℕ) (optype : String) (exmat : Bool)
    (VA VE : ℕ → ℕ → ℝ)
    (hA : BM_Amer S0 K r u d T N optype exmat = Except.ok VA)
    (hE : BM_Euro S0 K r u d T N optype = Except.ok VE) :
    (∀ i t, VE i t ≤ VA i t) ∧ VE N 0 ≤ VA N 0 := by
  obtain ⟨-, hbr, -, hVA⟩ := BM_Amer_ok_elim hA
  obtain ⟨-, -, -, hVE⟩ := BM_Euro_ok_elim hE
  subst hVA hVE
  have hd := (BM_dfact_pos r T N).le
  obtain ⟨hp0, hp1⟩ := BM_p_mem r u d T N hbr
  have main : ∀ i t,
      BM_Vmat (BM_dfact r T N) (BM_p r u d T N) (BM_Pmat S0 K u d N optype) N i t ≤
        BM_VmatA (BM_dfact r T N) (BM_p r u d T N) (BM_Pmat S0 K u d N optype) N i t := by
    intro i t
    rw [BM_Vmat, BM_VmatA]
    split_ifs with h
    · exact BM_Vcol_le_VcolA hd hp0.le hp1.le _ i
    · exact le_rfl
  exact ⟨main, main N 0⟩

/-- Witness for C2: a concrete put with `r = 0`, `u = 2`, `d = 1/2`, `N = 1`. -/
theorem BM_Amer_ge_BM_Euro_witness :
    ∃ VA VE : ℕ → ℕ → ℝ,
      BM_Amer 100 100 0 2 (1/2) 1 1 "put" false = Except.ok VA ∧
      BM_Euro 100 100 0 2 (1/2) 1 1 "put" = Except.ok VE ∧
      (∀ i t, VE i t ≤ VA i t) ∧ VE 1 0 ≤ VA 1 0 := by
  have hA : BM_Amer 100 100 0 2 (1/2) 1 1 "put" false = Except.ok
      (BM_VmatA (BM_dfact 0 1 1) (BM_p 0 2 (1/2) 1 1) (BM_Pmat 100 100 2 (1/2) 1 "put") 1) := by
    rw [BM_Amer, if_neg (by norm_num), if_pos BM_bracket_r0, if_pos (Or.inr rfl),
      if_neg (by decide)]
  have hE : BM_Euro 100 100 0 2 (1/2) 1 1 "put" = Except.ok
      (BM_Vmat (BM_dfact 0 1 1) (BM_p 0 2 (1/2) 1 1) (BM_Pmat 100 100 2 (1/2) 1 "put") 1) := by
    rw [BM_Euro, if_neg (by norm_num), if_pos BM_bracket_r0, if_pos (Or.inr rfl)]
  exact ⟨_, _, hA, hE, BM_Amer_ge_BM_Euro 100 100 0 2 (1/2) 1 1 "put" false _ _ hA hE⟩

/-- Claim C10: Under the no-arbitrage bracket (implied by a successful call),
every entry of the value lattices returned by `BM_Euro` and `BM_Amer` is
non-negative: payoffs are clamped at `0`, each backward step applies a
positive discount to a convex combination of non-negative successors, and
the American step additionally takes a max with a non-negative payoff. -/
theorem BM_lattice_nonneg (S0 K r u d T : ℝ) (N : ℕ) (optype : String) (exmat : Bool)
    (VE VA : ℕ → ℕ → ℝ)
    (hE : BM_Euro S0 K r u d T N optype = Except.ok VE)
    (hA : BM_Amer S0 K r u d T N optype exmat = Except.ok VA) :
    ∀ i t, 0 ≤ VE i t ∧ 0 ≤ VA i t := by
  obtain ⟨-, hbr, -, hVE⟩ := BM_Euro_ok_elim hE
  obtain ⟨-, -, -, hVA⟩ := BM_Amer_ok_elim hA
  subst hVE hVA
  have hd := (BM_dfact_pos r T N).le
  obtain ⟨hp0, hp1⟩ := BM_p_mem r u d T N hbr
  have hP : ∀ i t, 0 ≤ BM_Pmat S0 K u d N optype i t := BM_Pmat_nonneg S0 K u d optype
  intro i t
  constructor
  · rw [BM_Vmat]
    split_ifs with h
    · exact BM_Vcol_nonneg hd hp0.le hp1.le hP _ i
    · exact le_rfl
  · rw [BM_VmatA]
    split_ifs with h
    · exact BM_VcolA_nonneg hd hp0.le hp1.le hP _ i
    · exact le_rfl

/-- Witness for C10 at the concrete put of the C2 witness. -/
theorem BM_lattice_nonneg_witness :
    ∃ VE VA : ℕ → ℕ → ℝ,
      BM_Euro 100 100 0 2 (1/2) 1 1 "put" = Except.ok VE ∧
      BM_Amer 100 100 0 2 (1/2) 1 1 "put" false = Except.ok VA ∧
      ∀ i t, 0 ≤ VE i t ∧ 0 ≤ VA i t := by
  have hA : BM_Amer 100 100 0 2 (1/2) 1 1 "put" false = Except.ok
      (BM_VmatA (BM_dfact 0 1 1) (BM_p 0 2 (1/2) 1 1) (BM_Pmat 100 100 2 (1/2) 1 "put") 1) := by
    rw [BM_Amer, if_neg (by norm_num), if_pos BM_bracket_r0, if_pos (Or.inr rfl),
      if_neg (by decide)]
  have hE : BM_Euro 100 100 0 2 (1/2) 1 1 "put" = Except.ok
      (BM_Vmat (BM_dfact 0 1 1) (BM_p 0 2 (1/2) 1 1) (BM_Pmat 100 100 2 (1/2) 1 "put") 1) := by
    rw [BM_Euro, if_neg (by norm_num), if_pos BM_bracket_r0, if_pos (Or.inr rfl)]
  exact ⟨_, _, hE, hA, BM_lattice_nonneg 100 100 0 2 (1/2) 1 1 "put" false _ _ hE hA⟩

/-- Claim C3: For every successful American call with exercise tracking
(`exmat = true`), the flag recorded at an interior reachable node is true
exactly when the intrinsic payoff strictly exceeds the discounted
continuation value computed from the (already-updated) successor column of
the returned value lattice — for both `BM_Amer` and `aTM_Amer`. -/
theorem exercise_flag_iff :
    (∀ (S0 K r u d T : ℝ) (N : ℕ) (optype : String) (VA : ℕ → ℕ → ℝ),
      BM_Amer S0 K r u d T N optype true = Except.ok VA →
      ∀ t i, t < N → N - t ≤ i → i ≤ N →
        (BM_Exmat (BM_dfact r T N) (BM_p r u d T N) (BM_Pmat S0 K u d N optype) N i t ↔
          BM_Pmat S0 K u d N optype i t >
            BM_dfact r T N * (BM_p r u d T N * VA (i - 1) (t + 1) +
              (1 - BM_p r u d T N) * VA i (t + 1)))) ∧
    (∀ (S0 K r sigma div T : ℝ) (N : ℕ) (optype : String) (VA : ℕ → ℕ → ℝ),
      aTM_Amer S0 K r sigma div T N optype true = Except.ok VA →
      ∀ t i, t < N → N - t ≤ i → i ≤ N + t →
        (aTM_Exmat (aTM_dfact r T N) (aTM_pu r div sigma T N) (aTM_pm r div sigma T N)
            (aTM_pd r div sigma T N) (aTM_Pmat S0 K sigma T N optype) N i t ↔
          aTM_Pmat S0 K sigma T N optype i t >
            aTM_dfact r T N * (aTM_pu r div sigma T N * VA (i - 1) (t + 1) +
              aTM_pm r div sigma T N * VA i (t + 1) +
              aTM_pd r div sigma T N * VA (i + 1) (t + 1)))) := by
  constructor
  · intro S0 K r u d T N optype VA hA t i ht hi1 hi2
    obtain ⟨-, -, -, hVA⟩ := BM_Amer_ok_elim hA
    subst hVA
    have ht1 : t + 1 ≤ N := ht
    have hk : N - t = (N - (t + 1)) + 1 := by omega
    have e : N - (N - (t + 1) + 1) = t := by omega
    rw [BM_Exmat, BM_trackMat, if_pos ht.le, hk, BM_trackCol,
      if_pos ⟨by omega, hi2⟩]
    dsimp only
    simp only [BM_trackCol_fst, e]
    simp only [BM_VmatA, if_pos ht1]
    exact sub_lt_zero
  · intro S0 K r sigma div T N optype VA hA t i ht hi1 hi2
    obtain ⟨-, -, -, hVA⟩ := aTM_Amer_ok_elim hA
    subst hVA
    have ht1 : t + 1 ≤ N := ht
    have hk : N - t = (N - (t + 1)) + 1 := by omega
    have e : N - (N - (t + 1) + 1) = t := by omega
    rw [aTM_Exmat, aTM_trackMat, if_pos ht.le, hk, aTM_trackCol,
      if_pos ⟨by omega, by omega⟩]
    dsimp only
    simp only [aTM_trackCol_fst, e]
    simp only [aTM_VmatA, if_pos ht1]
    exact sub_lt_zero

/-- Witness for C3 at concrete `N = 1` American puts (binomial and
trinomial), at the interior node `t = 0`, `i = 1`. -/
theorem exercise_flag_iff_witness :
    ∃ VA WA : ℕ → ℕ → ℝ,
      BM_Amer 100 100 0 2 (1/2) 1 1 "put" true = Except.ok VA ∧
      aTM_Amer 100 100 1 1 0 1 1 "put" true = Except.ok WA ∧
      (BM_Exmat (BM_dfact 0 1 1) (BM_p 0 2 (1/2) 1 1) (BM_Pmat 100 100 2 (1/2) 1 "put") 1 1 0 ↔
        BM_Pmat 100 100 2 (1/2) 1 "put" 1 0 >
          BM_dfact 0 1 1 * (BM_p 0 2 (1/2) 1 1 * VA 0 1 +
            (1 - BM_p 0 2 (1/2) 1 1) * VA 1 1)) ∧
      (aTM_Exmat (aTM_dfact 1 1 1) (aTM_pu 1 0 1 1 1) (aTM_pm 1 0 1 1 1) (aTM_pd 1 0 1 1 1)
          (aTM_Pmat 100 100 1 1 1 "put") 1 1 0 ↔
        aTM_Pmat 100 100 1 1 1 "put" 1 0 >
          aTM_dfact 1 1 1 * (aTM_pu 1 0 1 1 1 * WA 0 1 + aTM_pm 1 0 1 1 1 * WA 1 1 +
            aTM_pd 1 0 1 1 1 * WA 2 1)) := by
  have hA : BM_Amer 100 100 0 2 (1/2) 1 1 "put" true = Except.ok (fun i t =>
      (BM_trackMat (BM_dfact 0 1 1) (BM_p 0 2 (1/2) 1 1)
        (BM_Pmat 100 100 2 (1/2) 1 "put") 1 i t).1) := by
    rw [BM_Amer, if_neg (by norm_num), if_pos BM_bracket_r0, if_pos (Or.inr rfl),
      if_pos rfl]
  have hW : aTM_Amer 100 100 1 1 0 1 1 "put" true = Except.ok (fun i t =>
      (aTM_trackMat (aTM_dfact 1 1 1) (aTM_pu 1 0 1 1 1) (aTM_pm 1 0 1 1 1) (aTM_pd 1 0 1 1 1)
        (aTM_Pmat 100 100 1 1 1 "put") 1 i t).1) := by
    rw [aTM_Amer, if_neg (by norm_num), if_pos (by norm_num : (0:ℝ) < 1 ∧ (0:ℝ) < 1),
      if_pos (Or.inr rfl), if_pos rfl]
  exact ⟨_, _, hA, hW,
    exercise_flag_iff.1 100 100 0 2 (1/2) 1 1 "put" _ hA 0 1 (by norm_num) (by norm_num)
      (by norm_num),
    exercise_flag_iff.2 100 100 1 1 0 1 1 "put" _ hW 0 1 (by norm_num) (by norm_num)
      (by norm_num)⟩

end QLib
